import Mathlib

/-!
Verification of the Tool-Invocation Bridge specified for the
LangChainL402 repository.  The repository ships a single demonstration
notebook (`llm_bitcoin_tools.ipynb`) that wires an external `LndTools`
adapter to an agent runtime; the spec defines the bridge core that the
notebook implies but does not contain.  Every definition below is
therefore modelled from the spec, faithful to its words, with the
concrete capabilities, arguments and node responses taken from the
notebook's transcripts; the properties C1-C10 of the spec are then
proved over this model.
-/

/-- Modelled from the spec: parameter types of an `ArgumentSchema`
(`type ∈ {string, integer, boolean, enumeration, composite}`, §3).
The notebook does not contain the schema layer. -/
inductive PType where
  | str
  | int
  | bool
  | enum (options : List String)
  | comp
deriving DecidableEq

/-- Modelled from the spec: type-specific constraints on a parameter
(§4.2: numeric ranges, non-empty strings, a structural envelope check
for invoice strings — charset/length only, no semantic decoding). -/
inductive PConstraint where
  | nonEmptyStr
  | nonNegative
  | invoiceEnvelope
deriving DecidableEq

/-- Modelled from the spec: a parameter descriptor
`{name, type, required, constraints}` of an `ArgumentSchema` (§3). -/
structure ParamDesc where
  name : String
  ptype : PType
  required : Bool
  constraints : List PConstraint
deriving DecidableEq

/-- Modelled from the spec: an `ArgumentSchema` is an ordered set of
parameter descriptors (§3). -/
abbrev ArgSchema := List ParamDesc

/-- Modelled from the spec: a raw argument value as received from the
calling model, pre-validation (untyped JSON-like scalar). -/
inductive RawVal where
  | s (v : String)
  | i (v : Int)
  | b (v : Bool)
deriving DecidableEq

/-- Modelled from the spec: an `InvocationRequest` argument mapping:
parameter name to raw value (§3). -/
abbrev RawArgs := List (String × RawVal)

/-- Modelled from the spec: field kinds of a capability's expected
response shape, used by the formatter's shape check (§4.4). -/
inductive FKind where
  | fInt
  | fStr
  | fBool
  | fBytes
  | fRec
  | fSeq
deriving DecidableEq

/-- Modelled from the spec: a `Capability` definition: unique name,
argument schema, description, mutating flag (§3, §4.3), plus the
expected response shape and the raw-field renaming the formatter
applies to produce domain-consistent payload field names (§4.4). -/
structure Capability where
  name : String
  schema : ArgSchema
  descr : String
  mutating : Bool
  shape : List (String × FKind)
  fieldMap : List (String × String)
deriving DecidableEq

/-- Modelled from the spec: the error taxonomy of §7. -/
inductive Violation where
  | missingRequired (param : String)
  | unrecognized (param : String)
  | typeMismatch (param : String)
  | constraintViolated (param : String)
deriving DecidableEq

/-- Modelled from the spec: the bounded set of failure categories the
bridge maps node/transport failures to (§7). -/
inductive ErrCat where
  | UnknownCapability
  | DuplicateCapability
  | ValidationError (violations : List Violation)
  | TransportError
  | Timeout
  | NodeRejected
  | MalformedResponse
deriving DecidableEq

/-- Modelled from the spec: the Schema Registry state: all registered
capabilities in registration order (§4.1). -/
abbrev Registry := List Capability

/-- Modelled from the spec: `register(capability)` adds a capability
definition, failing with `DuplicateCapability` if the name already
exists (§4.1). -/
def register (r : Registry) (c : Capability) : Except ErrCat Registry :=
  if r.any (fun c0 => c0.name == c.name) then .error .DuplicateCapability
  else .ok (r ++ [c])

/-- Modelled from the spec: `lookup(name)` returns the capability
definition or fails (`none` here; the bridge maps it to
`UnknownCapability`) (§4.1). -/
def lookupCap (r : Registry) (n : String) : Option Capability :=
  r.find? (fun c => c.name == n)

/-- Modelled from the spec: `list()` produces the finite sequence of
all registered capabilities in registration order (§4.1). -/
def listCaps (r : Registry) : List Capability := r

/-- Look up a raw argument by parameter name. -/
def lookupArg (args : RawArgs) (n : String) : Option RawVal :=
  (args.find? (fun a => a.1 == n)).map (fun a => a.2)

/-- Modelled from the spec: does a raw value match a declared
parameter type (§4.2 check (c))? -/
def typeMatches : PType → RawVal → Bool
  | .str, .s _ => true
  | .int, .i _ => true
  | .bool, .b _ => true
  | .enum opts, .s v => opts.contains v
  | .comp, _ => true
  | _, _ => false

/-- Modelled from the spec: structural constraint check (§4.2 check
(d)); the invoice envelope is charset/length only. -/
def checkConstraint : PConstraint → RawVal → Bool
  | .nonEmptyStr, .s v => !v.toList.isEmpty
  | .nonNegative, .i v => decide (0 ≤ v)
  | .invoiceEnvelope, .s v =>
      match v.toList with
      | 'l' :: 'n' :: rest =>
        decide (2 ≤ rest.length) && rest.all (fun c => c.isLower || c.isDigit)
      | _ => false
  | _, _ => true

/-- Violations of §4.2 check (a): every required parameter present. -/
def missingViolations (schema : ArgSchema) (args : RawArgs) : List Violation :=
  schema.filterMap (fun p =>
    if p.required && (lookupArg args p.name).isNone then
      some (.missingRequired p.name)
    else none)

/-- Violations of §4.2 check (b): no unrecognized parameter names. -/
def unrecognizedViolations (schema : ArgSchema) (args : RawArgs) : List Violation :=
  args.filterMap (fun a =>
    if schema.any (fun p => p.name == a.1) then none
    else some (.unrecognized a.1))

/-- Violations of §4.2 check (c): declared type matches. -/
def typeViolations (schema : ArgSchema) (args : RawArgs) : List Violation :=
  schema.filterMap (fun p =>
    match lookupArg args p.name with
    | none => none
    | some v => if typeMatches p.ptype v then none else some (.typeMismatch p.name))

/-- Violations of §4.2 check (d): type-specific constraints hold. -/
def constraintViolations (schema : ArgSchema) (args : RawArgs) : List Violation :=
  schema.filterMap (fun p =>
    match lookupArg args p.name with
    | none => none
    | some v =>
      if p.constraints.all (fun c => checkConstraint c v) then none
      else some (.constraintViolated p.name))

/-- Modelled from the spec: all violations of a raw argument mapping
against a schema, every check enumerated, not just the first (§4.2). -/
def allViolations (schema : ArgSchema) (args : RawArgs) : List Violation :=
  missingViolations schema args ++ unrecognizedViolations schema args ++
    typeViolations schema args ++ constraintViolations schema args

/-- Modelled from the spec: `validate(schema, rawArgs)`: a pure
function of its two arguments; on success returns the typed argument
record, on failure returns every violation found (§4.2). -/
def validate (schema : ArgSchema) (args : RawArgs) : Except (List Violation) RawArgs :=
  match allViolations schema args with
  | [] => .ok args
  | vs => .error vs

mutual
/-- Modelled from the spec: a structured node-response / payload value
(§3 `InvocationResult`, §4.4): primitive fields, binary fields (raw
bytes before formatting), nested records and ordered sequences. -/
inductive RVal where
  | rInt (v : Int)
  | rStr (v : String)
  | rBool (v : Bool)
  | rBytes (v : List Nat)
  | rRec (fields : RFields)
  | rSeq (items : RList)
deriving DecidableEq
/-- Ordered named fields of a response record. -/
inductive RFields where
  | nil
  | cons (k : String) (v : RVal) (rest : RFields)
deriving DecidableEq
/-- Ordered sequence of response values. -/
inductive RList where
  | nil
  | cons (v : RVal) (rest : RList)
deriving DecidableEq
end

/-- One hexadecimal digit, lowercase. -/
def hexDigit (n : Nat) : Char :=
  if n < 10 then Char.ofNat (48 + n) else Char.ofNat (87 + n % 16)

/-- Hexadecimal digit characters of a byte sequence, two lowercase
digits per byte, most significant first. -/
def hexChars : List Nat → List Char
  | [] => []
  | b :: rest => hexDigit (b / 16 % 16) :: hexDigit (b % 16) :: hexChars rest

/-- Modelled from the spec: the fixed, documented encoding of binary
fields: lowercase hexadecimal, two digits per byte (§4.4). -/
def hexEncode (bs : List Nat) : String :=
  String.mk (hexChars bs)

/-- Is a character a lowercase hexadecimal digit (`0`-`9`, `a`-`f`)? -/
def isHexChar (c : Char) : Bool :=
  c.isDigit || (97 ≤ c.toNat && c.toNat ≤ 102)

mutual
/-- Modelled from the spec: render every binary field of a response
value as hexadecimal text, recursively; all other fields unchanged
(§4.4). -/
def hexify : RVal → RVal
  | .rInt v => .rInt v
  | .rStr v => .rStr v
  | .rBool v => .rBool v
  | .rBytes v => .rStr (hexEncode v)
  | .rRec fs => .rRec (hexifyFields fs)
  | .rSeq xs => .rSeq (hexifyItems xs)
/-- `hexify` on record fields. -/
def hexifyFields : RFields → RFields
  | .nil => .nil
  | .cons k v rest => .cons k (hexify v) (hexifyFields rest)
/-- `hexify` on sequences. -/
def hexifyItems : RList → RList
  | .nil => .nil
  | .cons v rest => .cons (hexify v) (hexifyItems rest)
end

mutual
/-- Does a value still contain a raw-bytes field anywhere? -/
def hasBytes : RVal → Bool
  | .rBytes _ => true
  | .rRec fs => hasBytesF fs
  | .rSeq xs => hasBytesL xs
  | _ => false
/-- `hasBytes` on record fields. -/
def hasBytesF : RFields → Bool
  | .nil => false
  | .cons _ v rest => hasBytes v || hasBytesF rest
/-- `hasBytes` on sequences. -/
def hasBytesL : RList → Bool
  | .nil => false
  | .cons v rest => hasBytes v || hasBytesL rest
end

/-- Rename one raw field name through a capability's field map;
names outside the map are unchanged. -/
def applyRen (m : List (String × String)) (k : String) : String :=
  match m.find? (fun pr => pr.1 == k) with
  | some pr => pr.2
  | none => k

/-- Rename the top-level field names of a record through a
capability's field map (§4.4: payload fields named consistently with
the capability's domain). -/
def renameFieldsTop (m : List (String × String)) : RFields → RFields
  | .nil => .nil
  | .cons k v rest => .cons (applyRen m k) v (renameFieldsTop m rest)

/-- Does a formatted value match an expected field kind? Binary
fields have been rendered as strings by `hexify`. -/
def kindMatches : FKind → RVal → Bool
  | .fInt, .rInt _ => true
  | .fStr, .rStr _ => true
  | .fBool, .rBool _ => true
  | .fBytes, .rStr _ => true
  | .fRec, .rRec _ => true
  | .fSeq, .rSeq _ => true
  | _, _ => false

/-- Is a field with the given name and kind present in a record? -/
def fieldOk (fs : RFields) (n : String) (k : FKind) : Bool :=
  match fs with
  | .nil => false
  | .cons k0 v rest => if k0 == n then kindMatches k v else fieldOk rest n k

/-- Modelled from the spec: the formatter's shape check against the
capability's expected response shape (§4.4). -/
def shapeOk (shape : List (String × FKind)) (v : RVal) : Bool :=
  match v with
  | .rRec fs => shape.all (fun pr => fieldOk fs pr.1 pr.2)
  | _ => shape.isEmpty

/-- Modelled from the spec: `format(capability, rawResponse)` renames
raw field names to the capability's payload names, renders binary
fields as hexadecimal, and fails with `MalformedResponse` when the
result does not match the capability's expected shape (§4.4). -/
def format (cap : Capability) (raw : RVal) : Except ErrCat RVal :=
  let payload :=
    match raw with
    | .rRec fs => RVal.rRec (hexifyFields (renameFieldsTop cap.fieldMap fs))
    | v => hexify v
  if shapeOk cap.shape payload then .ok payload else .error .MalformedResponse

/-- Modelled from the spec: outcome of one node-client dispatch:
the raw response, or a transport failure, a domain-level rejection
by the node, or a timeout (§4.3). -/
inductive DispatchOutcome where
  | ok (raw : RVal)
  | transportError
  | nodeRejected
  | timeout
deriving DecidableEq

/-- Modelled from the spec: the external `NodeConnection`
collaborator (§3, §6): one operation per registered capability.
`σ` is the node's hidden state; read-only operations observe it,
mutating operations may change it (§4.3). -/
structure NodeConnection (σ : Type) where
  readOp : String → RawArgs → σ → DispatchOutcome
  mutOp : String → RawArgs → σ → DispatchOutcome × σ

/-- Modelled from the spec: `dispatch(capability, typedArgs,
connection)` invokes the bound node operation (§4.3); a read-only
capability leaves node state unchanged, a mutating one may move
funds / change node state. -/
def dispatch {σ : Type} (cap : Capability) (args : RawArgs)
    (conn : NodeConnection σ) (s : σ) : DispatchOutcome × σ :=
  if cap.mutating then conn.mutOp cap.name args s
  else (conn.readOp cap.name args s, s)

/-- Modelled from the spec: `InvocationResult`: a tagged outcome,
`Success(payload)` or `Failure(category, message)` (§3). -/
inductive InvocationResult where
  | Success (payload : RVal)
  | Failure (category : ErrCat) (message : String)
deriving DecidableEq

/-- Modelled from the spec: `invoke(name, rawArgs)` (§4.5): looks up
the capability, validates, dispatches, formats, mapping each failure
to its category.  Besides the result it returns the node state after
the call and the number of node dispatches performed (the observable
a dispatcher stub would record). -/
def invoke {σ : Type} (reg : Registry) (conn : NodeConnection σ)
    (nm : String) (rawArgs : RawArgs) (s : σ) : InvocationResult × σ × Nat :=
  match lookupCap reg nm with
  | none => (.Failure .UnknownCapability "unknown capability", s, 0)
  | some cap =>
    match validate cap.schema rawArgs with
    | .error vs => (.Failure (.ValidationError vs) "invalid arguments", s, 0)
    | .ok typed =>
      match dispatch cap typed conn s with
      | (.transportError, s1) => (.Failure .TransportError "transport failure", s1, 1)
      | (.nodeRejected, s1) => (.Failure .NodeRejected "node rejected the call", s1, 1)
      | (.timeout, s1) => (.Failure .Timeout "node call timed out", s1, 1)
      | (.ok raw, s1) =>
        match format cap raw with
        | .error _ => (.Failure .MalformedResponse "response shape mismatch", s1, 1)
        | .ok payload => (.Success payload, s1, 1)

/-- Modelled from the spec: the retry policy for read-only
capabilities: bounded exponential backoff, maximum attempts
configurable (§5). -/
structure RetryPolicy where
  maxAttempts : Nat
  baseDelayMs : Nat

/-- Modelled from the spec: the default retry policy (§5: maximum
attempts default small, e.g. 3). -/
def defaultPolicy : RetryPolicy := { maxAttempts := 3, baseDelayMs := 100 }

/-- Modelled from the spec: exponential backoff delay before retry
number `attempt` (§5). -/
def backoffDelay (p : RetryPolicy) (attempt : Nat) : Nat :=
  p.baseDelayMs * 2 ^ attempt

/-- Modelled from the spec: only `Timeout` and `TransportError` are
retryable; `NodeRejected` and `MalformedResponse` (and all others)
are always surfaced, never retried (§5, §7). -/
def retryable : ErrCat → Bool
  | .TransportError => true
  | .Timeout => true
  | _ => false

/-- Is the named capability registered as mutating? -/
def isMutating (reg : Registry) (nm : String) : Bool :=
  match lookupCap reg nm with
  | some cap => cap.mutating
  | none => false

/-- Modelled from the spec: the caller-driven retry window (§4.5, §5):
retries are new calls with the same request; a read-only capability
is re-invoked on a retryable failure while attempts remain, a
mutating capability is never retried automatically.  Returns the
final result, the node state, and the total number of node
dispatches in the window. -/
def invokeWithRetry {σ : Type} (reg : Registry) (conn : NodeConnection σ)
    (nm : String) (rawArgs : RawArgs) : Nat → σ → InvocationResult × σ × Nat
  | 0, s => (.Failure .TransportError "no attempts permitted", s, 0)
  | n + 1, s =>
    match invoke reg conn nm rawArgs s with
    | (.Failure cat msg, s1, c) =>
      if retryable cat && !isMutating reg nm && n != 0 then
        match invokeWithRetry reg conn nm rawArgs n s1 with
        | (res2, s2, c2) => (res2, s2, c + c2)
      else (.Failure cat msg, s1, c)
    | (res, s1, c) => (res, s1, c)

/-- Modelled from the spec: the deterministic canonicalization of an
argument mapping used for idempotency-key derivation (§5): arguments
sorted by parameter name, rendered textually. -/
def renderVal : RawVal → String
  | .s v => "s:" ++ v
  | .i v => "i:" ++ toString v
  | .b v => "b:" ++ toString v

/-- Insert one argument into a name-sorted argument list. -/
def insertArg (a : String × RawVal) : List (String × RawVal) → List (String × RawVal)
  | [] => [a]
  | b :: rest => if a.1 ≤ b.1 then a :: b :: rest else b :: insertArg a rest

/-- Sort an argument mapping by parameter name (canonical order). -/
def sortArgs : List (String × RawVal) → List (String × RawVal)
  | [] => []
  | a :: rest => insertArg a (sortArgs rest)

/-- Modelled from the spec: the deterministic idempotency key derived
from the request: capability name plus canonicalized arguments (§5). -/
def idemKey (nm : String) (args : RawArgs) : String :=
  nm ++ "#" ++ String.join ((sortArgs args).map (fun a => a.1 ++ "=" ++ renderVal a.2 ++ ";"))

/-- Modelled from the spec: the caller-layer deduplication in front of
dispatch (§5): a submission whose idempotency key was already seen is
dropped before it reaches dispatch; otherwise the request runs one
retry window and its key is recorded.  Returns the optional result,
the updated seen-key set, the node state, and the dispatch count. -/
def submitDeduped {σ : Type} (reg : Registry) (conn : NodeConnection σ)
    (nm : String) (rawArgs : RawArgs) (attempts : Nat)
    (seen : List String) (s : σ) :
    Option InvocationResult × List String × σ × Nat :=
  let k := idemKey nm rawArgs
  if seen.contains k then (none, seen, s, 0)
  else
    match invokeWithRetry reg conn nm rawArgs attempts s with
    | (res, s1, c) => (some res, k :: seen, s1, c)

/-- Build record fields from a list. -/
def fieldsOf : List (String × RVal) → RFields
  | [] => .nil
  | (k, v) :: rest => .cons k v (fieldsOf rest)

/-- Build a sequence from a list. -/
def seqOf : List RVal → RList
  | [] => .nil
  | v :: rest => .cons v (seqOf rest)

/-- The `channel_balance` capability of the notebook's tool set:
read-only balance query, no arguments; payload fields `localSat`,
`remoteSat` (§8 scenario). -/
def chanBalCap : Capability :=
  { name := "channel_balance", schema := [], descr := "channel balance query",
    mutating := false,
    shape := [("localSat", .fInt), ("remoteSat", .fInt)],
    fieldMap := [("local", "localSat"), ("remote", "remoteSat")] }

/-- The `decode_invoice` capability of the notebook's tool set:
read-only invoice decoding, one required string argument. -/
def decodeInvoiceCap : Capability :=
  { name := "decode_invoice", schema := [⟨"invoice", .str, true, [.invoiceEnvelope]⟩],
    descr := "decode a lightning invoice", mutating := false,
    shape := [("destination", .fStr), ("payment_hash", .fStr),
              ("num_satoshis", .fInt), ("timestamp", .fInt), ("expiry", .fInt),
              ("payment_addr", .fBytes), ("features", .fSeq)],
    fieldMap := [] }

/-- The `send_payment` capability of the notebook's tool set: pays an
invoice, hence mutating (moves funds); one required string argument. -/
def sendPaymentCap : Capability :=
  { name := "send_payment", schema := [⟨"invoice", .str, true, [.invoiceEnvelope]⟩],
    descr := "pay a lightning invoice", mutating := true,
    shape := [("payment_preimage", .fBytes)],
    fieldMap := [] }

/-- The registry holding the notebook's three demonstrated tools. -/
def sampleReg : Registry := [chanBalCap, decodeInvoiceCap, sendPaymentCap]

/-- The raw channel-balance response of the §8 scenario:
`{local:30399, remote:966131}`. -/
def chanBalResp : RVal :=
  .rRec (fieldsOf [("local", .rInt 30399), ("remote", .rInt 966131)])

/-- A stub node connection whose channel-balance operation returns
local 30399 / remote 966131 and that records nothing else. -/
def chanBalConn : NodeConnection Unit :=
  { readOp := fun nm _ _ => if nm == "channel_balance" then .ok chanBalResp else .transportError,
    mutOp := fun _ _ s => (.nodeRejected, s) }

/-- Modelled from the spec: registration as a registry transition:
on failure the registry is left unchanged (§4.1). -/
def registerApply (r : Registry) (c : Capability) : Registry × Option ErrCat :=
  match register r c with
  | .ok r2 => (r2, none)
  | .error e => (r, some e)

/-- A field map is non-overlapping when no rename target is itself a
rename source; the capability tables only use such maps. -/
def goodRen (m : List (String × String)) : Bool :=
  m.all (fun pr => m.all (fun pr2 => !(pr2.1 == pr.2)))

/-- The invoice decoded in the notebook transcripts (cells 10 and 11). -/
def decodedInvoice : String :=
  "lnsb100u1pjfz83lpp55h08akqscecxejh5jfecdx7hxf693tsv7c3lyp207fjqwmx9a8fsdqqcqzzsxqyz5vqsp5xhdak7n7h2dtl0gky9xzffnwel67h94jawkn0skpkj4xmcvtyphq9qyyssqrk86elwl2wctg6pw4uxjh4a3swrpljfvefy3xcxxk90tu484wxrpyu5pcwdfk65yjgw4fash3dsyuyxdyalengm4pwwj8t083cgqyhcphvaj27"

/-- The invoice paid in the notebook transcript (cell 17). -/
def paidInvoice : String :=
  "lnsb10n1pjfzgscpp5gayl6r39ty0cnjsdf889aywn9qlvmr7msru48vjc29k5akde43hsdqqcqzzsxqyz5vqsp5mq4hutpexz6zp8kyfr6l9khxnx4gzkqsxrmgdxz0l9edk57am64q9qyyssq2j2hg7rzyfr4t9t0t2jqm7qq86atzz4w82l2zggvghq4zx5vcey3m93skdjwq58x63530ryke53tms920sj244mgftdthw54g22qwfgqq2kgfc"

/-- The `payment_addr` bytes of the decoded invoice (the transcript's
octal escape sequence, as bytes). -/
def paymentAddrBytes : List Nat :=
  [0x35, 0xdb, 0xdb, 0x7a, 0x7e, 0xba, 0x9a, 0xbf, 0xbd, 0x16, 0x21, 0x4c,
   0x24, 0xa6, 0x6e, 0xcf, 0xf5, 0xeb, 0x96, 0xb2, 0xeb, 0xad, 0x37, 0xc2,
   0xc1, 0xb4, 0xaa, 0x6d, 0xe1, 0x8b, 0x20, 0x6e]

/-- The `payment_preimage` bytes of the transcript's paid invoice. -/
def preimageBytes : List Nat :=
  [0x2f, 0x38, 0xa5, 0xbe, 0x40, 0x3b, 0x17, 0xb5, 0xd7, 0xe3, 0x15, 0x39,
   0x54, 0xf8, 0xc8, 0x24, 0x36, 0xb4, 0x2e, 0x47, 0xab, 0x2a, 0x15, 0x64,
   0xb2, 0x7a, 0x7e, 0xff, 0x37, 0xfb, 0x6a, 0x7d]

/-- The raw `decode_invoice` node response of the notebook transcript
(cells 10 and 11, identical in both runs). -/
def decodeResp : RVal :=
  .rRec (fieldsOf
    [("destination", .rStr "038cf9360fa60a6de14ad7490950f90e06e828d4557a711aa54fabc6a5f2b4d81d"),
     ("payment_hash", .rStr "a5de7ed810c6706ccaf49273869bd7327458ae0cf623f2054ff264076cc5e9d3"),
     ("num_satoshis", .rInt 10000),
     ("timestamp", .rInt 1687232063),
     ("expiry", .rInt 86400),
     ("cltv_expiry", .rInt 80),
     ("payment_addr", .rBytes paymentAddrBytes),
     ("num_msat", .rInt 10000000),
     ("features", .rSeq (seqOf
       [.rRec (fieldsOf [("key", .rInt 9), ("name", .rStr "tlv-onion"),
                         ("is_known", .rBool true)]),
        .rRec (fieldsOf [("key", .rInt 14), ("name", .rStr "payment-addr"),
                         ("is_required", .rBool true), ("is_known", .rBool true)]),
        .rRec (fieldsOf [("key", .rInt 17), ("name", .rStr "multi-path-payments"),
                         ("is_known", .rBool true)])]))])

/-- The formatted `decode_invoice` payload: identical to the raw
response except that the binary `payment_addr` is rendered as
hexadecimal text. -/
def decodePayload : RVal :=
  .rRec (fieldsOf
    [("destination", .rStr "038cf9360fa60a6de14ad7490950f90e06e828d4557a711aa54fabc6a5f2b4d81d"),
     ("payment_hash", .rStr "a5de7ed810c6706ccaf49273869bd7327458ae0cf623f2054ff264076cc5e9d3"),
     ("num_satoshis", .rInt 10000),
     ("timestamp", .rInt 1687232063),
     ("expiry", .rInt 86400),
     ("cltv_expiry", .rInt 80),
     ("payment_addr", .rStr "35dbdb7a7eba9abfbd16214c24a66ecff5eb96b2ebad37c2c1b4aa6de18b206e"),
     ("num_msat", .rInt 10000000),
     ("features", .rSeq (seqOf
       [.rRec (fieldsOf [("key", .rInt 9), ("name", .rStr "tlv-onion"),
                         ("is_known", .rBool true)]),
        .rRec (fieldsOf [("key", .rInt 14), ("name", .rStr "payment-addr"),
                         ("is_required", .rBool true), ("is_known", .rBool true)]),
        .rRec (fieldsOf [("key", .rInt 17), ("name", .rStr "multi-path-payments"),
                         ("is_known", .rBool true)])]))])

/-- The argument mapping of the transcript's decode calls. -/
def decodeArgs : RawArgs := [("invoice", .s decodedInvoice)]

/-- The argument mapping of the transcript's payment call. -/
def payArgs : RawArgs := [("invoice", .s paidInvoice)]

/-- A stub node connection whose `decode_invoice` operation returns
the transcript's decoded record for the transcript's invoice; the
node state is a counter that read operations cannot touch. -/
def decodeConn : NodeConnection Nat :=
  { readOp := fun nm a _ =>
      if nm == "decode_invoice" then
        match lookupArg a "invoice" with
        | some (.s v) => if v == decodedInvoice then .ok decodeResp else .nodeRejected
        | _ => .nodeRejected
      else .transportError,
    mutOp := fun _ _ s => (.nodeRejected, s) }

/-- The raw `send_payment` response of the transcript, restricted to
the preimage field the send-payment shape requires. -/
def payResp : RVal :=
  .rRec (fieldsOf [("payment_preimage", .rBytes preimageBytes)])

/-- A stub connection simulating a transient failure: the first
`send_payment` dispatch times out, every later one succeeds; the
state counts the mutating dispatches that reached the node. -/
def transientConn : NodeConnection Nat :=
  { readOp := fun _ _ _ => .transportError,
    mutOp := fun nm _ s =>
      if nm == "send_payment" then
        if s == 0 then (.timeout, s + 1) else (.ok payResp, s + 1)
      else (.nodeRejected, s) }

/-- A stub connection that is always unreachable. -/
def downConn : NodeConnection Unit :=
  { readOp := fun _ _ _ => .transportError,
    mutOp := fun _ _ s => (.transportError, s) }

/-- A stub connection whose node rejects every call at domain level. -/
def rejectConn : NodeConnection Unit :=
  { readOp := fun _ _ _ => .nodeRejected,
    mutOp := fun _ _ s => (.nodeRejected, s) }

theorem invoke_count_le_one {σ : Type} (reg : Registry) (conn : NodeConnection σ)
    (nm : String) (a : RawArgs) (s : σ) : (invoke reg conn nm a s).2.2 ≤ 1 := by
  unfold invoke
  repeat' split
  all_goals first
  | exact Nat.zero_le 1
  | exact Nat.le_refl 1

theorem lookupCap_append_self (r : Registry) (c : Capability)
    (h : r.any (fun c0 => c0.name == c.name) = false) :
    lookupCap (r ++ [c]) c.name = some c := by
  induction r with
  | nil =>
    show List.find? _ [c] = some c
    rw [List.find?_cons_of_pos]
    simp
  | cons c0 r ih =>
    simp only [List.any_cons, Bool.or_eq_false_iff] at h
    show List.find? _ (c0 :: (r ++ [c])) = some c
    rw [List.find?_cons_of_neg]
    · exact ih h.2
    · simp [h.1]

theorem register_ok_eq (r r' : Registry) (c : Capability)
    (h : register r c = .ok r') :
    r' = r ++ [c] ∧ r.any (fun c0 => c0.name == c.name) = false := by
  unfold register at h
  split at h
  · simp at h
  · rename_i hn
    refine ⟨by injection h with h; exact h.symm, by simpa using hn⟩

theorem register_error_iff (r : Registry) (c : Capability) :
    register r c = .error .DuplicateCapability ↔ ∃ c0 ∈ r, c0.name = c.name := by
  constructor
  · intro he
    unfold register at he
    split at he
    · rename_i h
      simpa [List.any_eq_true] using h
    · simp at he
  · intro he
    have h : r.any (fun c0 => c0.name == c.name) = true := by
      simpa [List.any_eq_true] using he
    simp [register, h]

theorem invoke_readonly_state {σ : Type} (reg : Registry) (conn : NodeConnection σ)
    (nm : String) (a : RawArgs) (s : σ) (cap : Capability)
    (hl : lookupCap reg nm = some cap) (hm : cap.mutating = false) :
    (invoke reg conn nm a s).2.1 = s := by
  simp only [invoke, hl]
  cases hv : validate cap.schema a with
  | error vs => rfl
  | ok typed =>
    simp only [dispatch, hm, Bool.false_eq_true, if_false]
    cases conn.readOp cap.name typed s with
    | ok raw => cases hf : format cap raw <;> simp [hf]
    | transportError => rfl
    | nodeRejected => rfl
    | timeout => rfl

mutual
theorem hexify_no_bytes : ∀ v : RVal, hasBytes (hexify v) = false
  | .rInt _ => rfl
  | .rStr _ => rfl
  | .rBool _ => rfl
  | .rBytes _ => rfl
  | .rRec fs => by simpa [hexify, hasBytes] using hexifyFields_no_bytes fs
  | .rSeq xs => by simpa [hexify, hasBytes] using hexifyItems_no_bytes xs
theorem hexifyFields_no_bytes : ∀ fs : RFields, hasBytesF (hexifyFields fs) = false
  | .nil => rfl
  | .cons k v rest => by
      simp [hexifyFields, hasBytesF, hexify_no_bytes v, hexifyFields_no_bytes rest]
theorem hexifyItems_no_bytes : ∀ xs : RList, hasBytesL (hexifyItems xs) = false
  | .nil => rfl
  | .cons v rest => by
      simp [hexifyItems, hasBytesL, hexify_no_bytes v, hexifyItems_no_bytes rest]
end

mutual
theorem hexify_id_of_no_bytes : ∀ v : RVal, hasBytes v = false → hexify v = v
  | .rInt _, _ => rfl
  | .rStr _, _ => rfl
  | .rBool _, _ => rfl
  | .rBytes _, h => by simp [hasBytes] at h
  | .rRec fs, h => by
      simp only [hasBytes] at h
      simp [hexify, hexifyFields_id_of_no_bytes fs h]
  | .rSeq xs, h => by
      simp only [hasBytes] at h
      simp [hexify, hexifyItems_id_of_no_bytes xs h]
theorem hexifyFields_id_of_no_bytes : ∀ fs : RFields, hasBytesF fs = false → hexifyFields fs = fs
  | .nil, _ => rfl
  | .cons k v rest, h => by
      simp only [hasBytesF, Bool.or_eq_false_iff] at h
      simp [hexifyFields, hexify_id_of_no_bytes v h.1, hexifyFields_id_of_no_bytes rest h.2]
theorem hexifyItems_id_of_no_bytes : ∀ xs : RList, hasBytesL xs = false → hexifyItems xs = xs
  | .nil, _ => rfl
  | .cons v rest, h => by
      simp only [hasBytesL, Bool.or_eq_false_iff] at h
      simp [hexifyItems, hexify_id_of_no_bytes v h.1, hexifyItems_id_of_no_bytes rest h.2]
end


theorem applyRen_eq_self_of_not_source (m : List (String × String)) (x : String)
    (h : m.all (fun pr => !(pr.1 == x)) = true) : applyRen m x = x := by
  unfold applyRen
  have hf : m.find? (fun pr => pr.1 == x) = none := by
    rw [List.find?_eq_none]
    intro pr hpr
    simpa using (List.all_eq_true.mp h) pr hpr
  rw [hf]

theorem applyRen_idem (m : List (String × String)) (hg : goodRen m = true)
    (k : String) : applyRen m (applyRen m k) = applyRen m k := by
  cases hf : m.find? (fun pr => pr.1 == k) with
  | none =>
    have h1 : applyRen m k = k := by unfold applyRen; rw [hf]
    rw [h1, h1]
  | some pr =>
    have h1 : applyRen m k = pr.2 := by unfold applyRen; rw [hf]
    rw [h1]
    have hpr : pr ∈ m := List.mem_of_find?_eq_some hf
    exact applyRen_eq_self_of_not_source m pr.2 ((List.all_eq_true.mp hg) pr hpr)

theorem renameFieldsTop_idem (m : List (String × String)) (hg : goodRen m = true) :
    ∀ fs : RFields, renameFieldsTop m (renameFieldsTop m fs) = renameFieldsTop m fs
  | .nil => rfl
  | .cons k v rest => by
      simp [renameFieldsTop, applyRen_idem m hg k, renameFieldsTop_idem m hg rest]

theorem renameFieldsTop_hexifyFields_comm (m : List (String × String)) :
    ∀ fs : RFields, renameFieldsTop m (hexifyFields fs) = hexifyFields (renameFieldsTop m fs)
  | .nil => rfl
  | .cons k v rest => by
      simp [renameFieldsTop, hexifyFields, renameFieldsTop_hexifyFields_comm m rest]

theorem format_ok_again (cap : Capability) (raw p : RVal)
    (hg : goodRen cap.fieldMap = true) (h : format cap raw = .ok p) :
    format cap p = .ok p := by
  cases raw with
  | rRec fs =>
    simp only [format] at h
    split at h
    · rename_i hs
      injection h with h
      subst h
      have hout : renameFieldsTop cap.fieldMap (hexifyFields (renameFieldsTop cap.fieldMap fs)) =
          hexifyFields (renameFieldsTop cap.fieldMap fs) := by
        rw [renameFieldsTop_hexifyFields_comm, renameFieldsTop_idem cap.fieldMap hg]
      have hid : hexifyFields (hexifyFields (renameFieldsTop cap.fieldMap fs)) =
          hexifyFields (renameFieldsTop cap.fieldMap fs) :=
        hexifyFields_id_of_no_bytes _ (hexifyFields_no_bytes _)
      simp only [format, hout, hid, hs, if_pos]
    · simp at h
  | rInt v =>
    simp only [format] at h
    split at h
    · rename_i hs
      injection h with h
      subst h
      simp only [format, hexify] at hs ⊢
      simp [hs]
    · simp at h
  | rStr v =>
    simp only [format] at h
    split at h
    · rename_i hs
      injection h with h
      subst h
      simp only [format, hexify] at hs ⊢
      simp [hs]
    · simp at h
  | rBool v =>
    simp only [format] at h
    split at h
    · rename_i hs
      injection h with h
      subst h
      simp only [format, hexify] at hs ⊢
      simp [hs]
    · simp at h
  | rBytes bs =>
    simp only [format] at h
    split at h
    · rename_i hs
      injection h with h
      subst h
      simp only [format, hexify] at hs ⊢
      simp [hs]
    · simp at h
  | rSeq xs =>
    simp only [format] at h
    split at h
    · rename_i hs
      injection h with h
      subst h
      have hid : hexifyItems (hexifyItems xs) = hexifyItems xs :=
        hexifyItems_id_of_no_bytes _ (hexifyItems_no_bytes _)
      simp only [format, hexify] at hs ⊢
      simp [hid, hs]
    · simp at h

theorem hexDigit_isHex (n : Nat) (h : n < 16) : isHexChar (hexDigit n) = true := by
  interval_cases n <;> decide

theorem hexChars_all_hex : ∀ bs : List Nat, ∀ c ∈ hexChars bs, isHexChar c = true := by
  intro bs
  induction bs with
  | nil => intro c hc; cases hc
  | cons b rest ih =>
    intro c hc
    simp only [hexChars, List.mem_cons] at hc
    rcases hc with h | h | h
    · exact h ▸ hexDigit_isHex _ (Nat.mod_lt _ (by omega))
    · exact h ▸ hexDigit_isHex _ (Nat.mod_lt _ (by omega))
    · exact ih c h

theorem hexEncode_all_hex (bs : List Nat) : ∀ c ∈ (hexEncode bs).toList, isHexChar c = true := by
  intro c hc
  exact hexChars_all_hex bs c hc

theorem invokeWithRetry_count_le {σ : Type} (reg : Registry) (conn : NodeConnection σ)
    (nm : String) (a : RawArgs) :
    ∀ (att : Nat) (s : σ), (invokeWithRetry reg conn nm a att s).2.2 ≤ att := by
  intro att
  induction att with
  | zero => intro s; simp [invokeWithRetry]
  | succ n ih =>
    intro s
    have hc := invoke_count_le_one reg conn nm a s
    unfold invokeWithRetry
    rcases hres : invoke reg conn nm a s with ⟨res, s1, c⟩
    rw [hres] at hc
    simp only at hc
    cases res with
    | Success payload => simpa using Nat.le_trans hc (by omega)
    | Failure cat msg =>
      dsimp only
      by_cases hr : (retryable cat && !isMutating reg nm && n != 0) = true
      · rw [if_pos hr]
        rcases h2 : invokeWithRetry reg conn nm a n s1 with ⟨res2, s2, c2⟩
        have hn := ih s1
        rw [h2] at hn
        simp only at hn ⊢
        omega
      · rw [if_neg hr]
        simp only
        omega

theorem invokeWithRetry_no_retry {σ : Type} (reg : Registry) (conn : NodeConnection σ)
    (nm : String) (a : RawArgs) (n : Nat) (s : σ) (cat : ErrCat) (msg : String)
    (hres : (invoke reg conn nm a s).1 = .Failure cat msg)
    (hcat : retryable cat = false) :
    invokeWithRetry reg conn nm a (n + 1) s = invoke reg conn nm a s := by
  unfold invokeWithRetry
  rcases hr : invoke reg conn nm a s with ⟨res, s1, c⟩
  rw [hr] at hres
  simp only at hres
  subst hres
  dsimp only
  simp [hcat]

theorem invokeWithRetry_mutating_eq_invoke {σ : Type} (reg : Registry)
    (conn : NodeConnection σ) (nm : String) (a : RawArgs) (n : Nat) (s : σ)
    (hm : isMutating reg nm = true) :
    invokeWithRetry reg conn nm a (n + 1) s = invoke reg conn nm a s := by
  unfold invokeWithRetry
  rcases hr : invoke reg conn nm a s with ⟨res, s1, c⟩
  cases res <;> simp [hm]

theorem missing_param_violation (schema : ArgSchema) (args : RawArgs) (p : ParamDesc)
    (hp : p ∈ schema) (hr : p.required = true) (ha : lookupArg args p.name = none) :
    Violation.missingRequired p.name ∈ allViolations schema args := by
  have hmem : Violation.missingRequired p.name ∈ missingViolations schema args := by
    unfold missingViolations
    exact List.mem_filterMap.mpr ⟨p, hp, by simp [hr, ha]⟩
  simp only [allViolations, List.mem_append]
  tauto

theorem validate_error_of_violation (schema : ArgSchema) (args : RawArgs)
    (v : Violation) (h : v ∈ allViolations schema args) :
    validate schema args = .error (allViolations schema args) := by
  unfold validate
  cases h0 : allViolations schema args with
  | nil => rw [h0] at h; cases h
  | cons v0 rest => rfl

theorem invoke_invalid_no_dispatch {σ : Type} (reg : Registry) (conn : NodeConnection σ)
    (nm : String) (a : RawArgs) (s : σ) (cap : Capability) (vs : List Violation)
    (hl : lookupCap reg nm = some cap) (hv : validate cap.schema a = .error vs) :
    invoke reg conn nm a s = (.Failure (.ValidationError vs) "invalid arguments", s, 0) := by
  simp [invoke, hl, hv]

theorem invoke_unknown_no_dispatch {σ : Type} (reg : Registry) (conn : NodeConnection σ)
    (nm : String) (a : RawArgs) (s : σ) (hl : lookupCap reg nm = none) :
    invoke reg conn nm a s = (.Failure .UnknownCapability "unknown capability", s, 0) := by
  simp [invoke, hl]

theorem submitDeduped_skips_seen {σ : Type} (reg : Registry) (conn : NodeConnection σ)
    (nm : String) (a : RawArgs) (att : Nat) (seen : List String) (s : σ)
    (h : seen.contains (idemKey nm a) = true) :
    submitDeduped reg conn nm a att seen s = (none, seen, s, 0) := by
  have hm : idemKey nm a ∈ seen := by simpa using h
  simp [submitDeduped, hm]

theorem submitDeduped_second_zero {σ : Type} (reg : Registry) (conn : NodeConnection σ)
    (nm : String) (a : RawArgs) (att att2 : Nat) (seen : List String) (s s2 : σ) :
    (submitDeduped reg conn nm a att2 (submitDeduped reg conn nm a att seen s).2.1 s2).2.2.2 = 0 := by
  have hsec : ∀ seen2 : List String, idemKey nm a ∈ seen2 →
      (submitDeduped reg conn nm a att2 seen2 s2).2.2.2 = 0 := by
    intro seen2 h2
    simp [submitDeduped, h2]
  by_cases h : idemKey nm a ∈ seen
  · apply hsec
    simp [submitDeduped, h]
  · rcases hw : invokeWithRetry reg conn nm a att s with ⟨res, s1, c⟩
    apply hsec
    simp [submitDeduped, h, hw]

/-- C1: every `invoke(name, rawArgs)` proceeds through lookup,
validate, dispatch, format in that order and returns exactly one
tagged outcome: `UnknownCapability` when the name is not registered,
otherwise `ValidationError` on invalid arguments, otherwise
`TransportError`/`NodeRejected`/`Timeout` on dispatch failure,
otherwise `MalformedResponse` on formatting failure, otherwise
`InvocationResult.Success(payload)`; the dispatch count of a single
call never exceeds one, so no retry occurs inside a call. -/
theorem invoke_stage_order {σ : Type} (reg : Registry) (conn : NodeConnection σ)
    (nm : String) (a : RawArgs) (s : σ) :
    (lookupCap reg nm = none →
      invoke reg conn nm a s = (.Failure .UnknownCapability "unknown capability", s, 0)) ∧
    (∀ cap, lookupCap reg nm = some cap →
      (∀ vs, validate cap.schema a = .error vs →
        invoke reg conn nm a s = (.Failure (.ValidationError vs) "invalid arguments", s, 0)) ∧
      (∀ typed, validate cap.schema a = .ok typed →
        (∀ s1, dispatch cap typed conn s = (.transportError, s1) →
          invoke reg conn nm a s = (.Failure .TransportError "transport failure", s1, 1)) ∧
        (∀ s1, dispatch cap typed conn s = (.nodeRejected, s1) →
          invoke reg conn nm a s = (.Failure .NodeRejected "node rejected the call", s1, 1)) ∧
        (∀ s1, dispatch cap typed conn s = (.timeout, s1) →
          invoke reg conn nm a s = (.Failure .Timeout "node call timed out", s1, 1)) ∧
        (∀ raw s1, dispatch cap typed conn s = (.ok raw, s1) →
          (format cap raw = .error .MalformedResponse →
            invoke reg conn nm a s = (.Failure .MalformedResponse "response shape mismatch", s1, 1)) ∧
          (∀ p, format cap raw = .ok p →
            invoke reg conn nm a s = (.Success p, s1, 1))))) ∧
    (invoke reg conn nm a s).2.2 ≤ 1 := by
  refine ⟨?_, ?_, invoke_count_le_one reg conn nm a s⟩
  · intro hl
    exact invoke_unknown_no_dispatch reg conn nm a s hl
  · intro cap hl
    constructor
    · intro vs hv
      exact invoke_invalid_no_dispatch reg conn nm a s cap vs hl hv
    · intro typed hv
      refine ⟨?_, ?_, ?_, ?_⟩
      · intro s1 hd
        simp [invoke, hl, hv, hd]
      · intro s1 hd
        simp [invoke, hl, hv, hd]
      · intro s1 hd
        simp [invoke, hl, hv, hd]
      · intro raw s1 hd
        constructor
        · intro hf
          simp [invoke, hl, hv, hd, hf]
        · intro p hf
          simp [invoke, hl, hv, hd, hf]

/-- Witness for C1 at a concrete input: invoking the unregistered
name `unknown_tool` fails with `UnknownCapability` and performs no
dispatch. -/
theorem invoke_stage_order_witness :
    invoke sampleReg chanBalConn "unknown_tool" [] () =
      (.Failure .UnknownCapability "unknown capability", (), 0) :=
  (invoke_stage_order sampleReg chanBalConn "unknown_tool" [] ()).1 rfl

/-- C2: for a mutating capability the bound node operation is
dispatched at most once per `invoke` call, at most once per retry
window (the retry layer collapses to a single call, so a transient
`Timeout` is never followed by an automatic second dispatch), and the
idempotency-key deduplication layer performs zero dispatches for a
second submission of the same key. -/
theorem mutating_never_double_dispatched {σ : Type} (reg : Registry)
    (conn : NodeConnection σ) (nm : String) (a : RawArgs)
    (hm : isMutating reg nm = true) :
    (∀ s : σ, (invoke reg conn nm a s).2.2 ≤ 1) ∧
    (∀ (att : Nat) (s : σ), (invokeWithRetry reg conn nm a att s).2.2 ≤ 1) ∧
    (∀ (n : Nat) (s : σ), invokeWithRetry reg conn nm a (n + 1) s = invoke reg conn nm a s) ∧
    (∀ (att att2 : Nat) (seen : List String) (s s2 : σ),
      (submitDeduped reg conn nm a att2 (submitDeduped reg conn nm a att seen s).2.1 s2).2.2.2 = 0) := by
  refine ⟨fun s => invoke_count_le_one reg conn nm a s, ?_,
          fun n s => invokeWithRetry_mutating_eq_invoke reg conn nm a n s hm,
          fun att att2 seen s s2 => submitDeduped_second_zero reg conn nm a att att2 seen s s2⟩
  intro att s
  cases att with
  | zero => simp [invokeWithRetry]
  | succ n =>
    rw [invokeWithRetry_mutating_eq_invoke reg conn nm a n s hm]
    exact invoke_count_le_one reg conn nm a s

set_option maxRecDepth 16384 in
/-- Witness for C2 at a concrete input: paying the transcript's
invoice over a connection whose first `send_payment` dispatch times
out and whose second would succeed dispatches exactly once in a
three-attempt retry window (no automatic retry), even though a retry
would have succeeded. -/
theorem mutating_never_double_dispatched_witness :
    isMutating sampleReg "send_payment" = true ∧
    (invokeWithRetry sampleReg transientConn "send_payment" payArgs 3 0).2.2 ≤ 1 ∧
    invokeWithRetry sampleReg transientConn "send_payment" payArgs 3 0 =
      (.Failure .Timeout "node call timed out", 1, 1) ∧
    (invoke sampleReg transientConn "send_payment" payArgs 1).1 =
      .Success (.rRec (fieldsOf [("payment_preimage",
        .rStr "2f38a5be403b17b5d7e3153954f8c82436b42e47ab2a1564b27a7eff37fb6a7d")])) :=
  ⟨rfl,
   (mutating_never_double_dispatched sampleReg transientConn "send_payment" payArgs rfl).2.1 3 0,
   by decide, by decide⟩

/-- C3: `validate` is a pure function of schema and arguments; on
invalid input it enumerates every violation found — in particular a
`missingRequired` entry for each absent required parameter — and the
bridge then returns the full violation list without dispatching: the
node state is unchanged and the dispatch count is zero. -/
theorem validate_pure_enumerates_all (schema : ArgSchema) (args : RawArgs) :
    (∀ p ∈ schema, p.required = true → lookupArg args p.name = none →
      Violation.missingRequired p.name ∈ allViolations schema args ∧
      validate schema args = .error (allViolations schema args)) ∧
    (∀ (σ : Type) (reg : Registry) (conn : NodeConnection σ) (nm : String) (s : σ)
      (cap : Capability) (vs : List Violation),
      lookupCap reg nm = some cap → validate cap.schema args = .error vs →
      invoke reg conn nm args s = (.Failure (.ValidationError vs) "invalid arguments", s, 0)) := by
  constructor
  · intro p hp hr ha
    have hmem := missing_param_violation schema args p hp hr ha
    exact ⟨hmem, validate_error_of_violation schema args _ hmem⟩
  · intro σ reg conn nm s cap vs hl hv
    exact invoke_invalid_no_dispatch reg conn nm args s cap vs hl hv

set_option maxRecDepth 16384 in
/-- Witness for C3 at concrete inputs: calling `send_payment` with no
arguments yields a violation naming the missing `invoice` parameter,
and invoking it with a malformed invoice fails with `ValidationError`
while the dispatch count stays zero and the node state untouched. -/
theorem validate_pure_enumerates_all_witness :
    (Violation.missingRequired "invoice" ∈ allViolations sendPaymentCap.schema [] ∧
      validate sendPaymentCap.schema [] = .error (allViolations sendPaymentCap.schema [])) ∧
    invoke sampleReg transientConn "send_payment" [("invoice", .s "<malformed>")] 0 =
      (.Failure (.ValidationError [.constraintViolated "invoice"]) "invalid arguments", 0, 0) :=
  ⟨(validate_pure_enumerates_all sendPaymentCap.schema []).1
      ⟨"invoice", .str, true, [.invoiceEnvelope]⟩ (by decide) rfl rfl,
   (validate_pure_enumerates_all sendPaymentCap.schema [("invoice", .s "<malformed>")]).2
      Nat sampleReg transientConn "send_payment" 0 sendPaymentCap
      [.constraintViolated "invoice"] rfl rfl⟩

/-- C4: after a successful `register`, looking the capability up by
name returns a definition with identical name and schema (the whole
definition, in fact), and `list()` enumerates the registry in
registration order with the new capability appended last. -/
theorem register_lookup_roundtrip (r r2 : Registry) (c : Capability)
    (h : register r c = .ok r2) :
    lookupCap r2 c.name = some c ∧
    (lookupCap r2 c.name).map Capability.name = some c.name ∧
    (lookupCap r2 c.name).map Capability.schema = some c.schema ∧
    listCaps r2 = listCaps r ++ [c] := by
  obtain ⟨heq, hany⟩ := register_ok_eq r r2 c h
  subst heq
  have hl := lookupCap_append_self r c hany
  refine ⟨hl, ?_, ?_, rfl⟩
  · rw [hl]
    rfl
  · rw [hl]
    rfl

/-- Witness for C4 at a concrete input: registering `channel_balance`
into a registry holding `decode_invoice`. -/
theorem register_lookup_roundtrip_witness :
    lookupCap [decodeInvoiceCap, chanBalCap] chanBalCap.name = some chanBalCap ∧
    (lookupCap [decodeInvoiceCap, chanBalCap] chanBalCap.name).map Capability.name =
      some chanBalCap.name ∧
    (lookupCap [decodeInvoiceCap, chanBalCap] chanBalCap.name).map Capability.schema =
      some chanBalCap.schema ∧
    listCaps [decodeInvoiceCap, chanBalCap] = listCaps [decodeInvoiceCap] ++ [chanBalCap] :=
  register_lookup_roundtrip [decodeInvoiceCap] [decodeInvoiceCap, chanBalCap] chanBalCap rfl

/-- C5: `register` fails with `DuplicateCapability` exactly when a
capability with the same name is already registered, leaving the
registry unchanged on any failure, and invoking a never-registered
name fails with `UnknownCapability` with zero dispatches and the node
state untouched. -/
theorem register_duplicate_iff_and_unknown_untouched :
    (∀ (r : Registry) (c : Capability),
      (register r c = .error .DuplicateCapability ↔ ∃ c0 ∈ r, c0.name = c.name) ∧
      (∀ e : ErrCat, (registerApply r c).2 = some e → (registerApply r c).1 = r)) ∧
    (∀ (σ : Type) (reg : Registry) (conn : NodeConnection σ) (nm : String)
      (a : RawArgs) (s : σ), lookupCap reg nm = none →
      invoke reg conn nm a s = (.Failure .UnknownCapability "unknown capability", s, 0)) := by
  constructor
  · intro r c
    refine ⟨register_error_iff r c, ?_⟩
    intro e he
    unfold registerApply at he ⊢
    cases hr : register r c with
    | ok r2 =>
      rw [hr] at he
      simp at he
    | error e2 => rfl
  · intro σ reg conn nm a s hl
    exact invoke_unknown_no_dispatch reg conn nm a s hl

/-- Witness for C5 at concrete inputs: re-registering
`channel_balance` duplicates, the failed registration leaves the
registry as it was, and `invoke("unknown_tool", {})` fails with
`UnknownCapability` without touching the rejecting connection stub. -/
theorem register_duplicate_iff_and_unknown_untouched_witness :
    register [chanBalCap] chanBalCap = .error .DuplicateCapability ∧
    (registerApply [chanBalCap] chanBalCap).1 = [chanBalCap] ∧
    invoke sampleReg rejectConn "unknown_tool" [] () =
      (.Failure .UnknownCapability "unknown capability", (), 0) :=
  ⟨(register_duplicate_iff_and_unknown_untouched.1 [chanBalCap] chanBalCap).1.mpr
      ⟨chanBalCap, by simp, rfl⟩,
   (register_duplicate_iff_and_unknown_untouched.1 [chanBalCap] chanBalCap).2
      .DuplicateCapability rfl,
   register_duplicate_iff_and_unknown_untouched.2 Unit sampleReg rejectConn
      "unknown_tool" [] () rfl⟩

/-- C6: formatting never leaves raw bytes in a payload: a successful
`format` yields a payload with no binary field anywhere, each binary
field having been rendered through the fixed hexadecimal encoding,
whose output uses only lowercase hexadecimal digit characters. -/
theorem format_binary_hex :
    (∀ (cap : Capability) (raw p : RVal), format cap raw = .ok p → hasBytes p = false) ∧
    (∀ bs : List Nat, hexify (.rBytes bs) = .rStr (hexEncode bs)) ∧
    (∀ bs : List Nat, ∀ c ∈ (hexEncode bs).toList, isHexChar c = true) := by
  refine ⟨?_, fun bs => rfl, fun bs => hexEncode_all_hex bs⟩
  intro cap raw p h
  cases raw with
  | rInt v =>
    simp only [format] at h
    split at h
    · injection h with h
      subst h
      exact hexify_no_bytes _
    · simp at h
  | rStr v =>
    simp only [format] at h
    split at h
    · injection h with h
      subst h
      exact hexify_no_bytes _
    · simp at h
  | rBool v =>
    simp only [format] at h
    split at h
    · injection h with h
      subst h
      exact hexify_no_bytes _
    · simp at h
  | rBytes bs =>
    simp only [format] at h
    split at h
    · injection h with h
      subst h
      exact hexify_no_bytes _
    · simp at h
  | rRec fs =>
    simp only [format] at h
    split at h
    · injection h with h
      subst h
      simpa [hasBytes] using hexifyFields_no_bytes (renameFieldsTop cap.fieldMap fs)
    · simp at h
  | rSeq xs =>
    simp only [format] at h
    split at h
    · injection h with h
      subst h
      exact hexify_no_bytes _
    · simp at h

set_option maxRecDepth 16384 in
/-- Witness for C6 at a concrete input: the formatted transcript
decode payload contains no raw bytes, and the transcript's
`payment_addr` bytes render as their lowercase hexadecimal text. -/
theorem format_binary_hex_witness :
    hasBytes decodePayload = false ∧
    hexify (.rBytes paymentAddrBytes) = .rStr (hexEncode paymentAddrBytes) ∧
    hexEncode paymentAddrBytes =
      "35dbdb7a7eba9abfbd16214c24a66ecff5eb96b2ebad37c2c1b4aa6de18b206e" :=
  ⟨format_binary_hex.1 decodeInvoiceCap decodeResp decodePayload rfl,
   format_binary_hex.2.1 paymentAddrBytes, by decide⟩

/-- C7: `invoke("channel_balance", {})` against a stub connection
whose channel-balance operation returns local 30399 / remote 966131
returns `Success` with payload `{localSat: 30399, remoteSat: 966131}`
(one dispatch, node state untouched). -/
theorem channel_balance_returns_balances :
    invoke sampleReg chanBalConn "channel_balance" [] () =
      (.Success (.rRec (fieldsOf [("localSat", .rInt 30399), ("remoteSat", .rInt 966131)])),
       (), 1) := by
  decide

/-- C8: `format` is idempotent on well-formed responses.  In this
embedding `format` is a function, so formatting the same raw response
twice yields identical payloads definitionally; the substantive
content proved here is that a payload produced by a successful
`format` is a fixed point: formatting it again succeeds and returns
it unchanged (for the non-overlapping field maps the capability
tables use). -/
theorem format_idempotent (cap : Capability) (raw p : RVal)
    (hg : goodRen cap.fieldMap = true) (h : format cap raw = .ok p) :
    format cap raw = .ok p ∧ format cap p = .ok p :=
  ⟨h, format_ok_again cap raw p hg h⟩

set_option maxRecDepth 16384 in
/-- Witness for C8 at a concrete input: the formatted channel-balance
payload of the §8 scenario re-formats to itself. -/
theorem format_idempotent_witness :
    format chanBalCap (.rRec (fieldsOf [("localSat", .rInt 30399), ("remoteSat", .rInt 966131)])) =
      .ok (.rRec (fieldsOf [("localSat", .rInt 30399), ("remoteSat", .rInt 966131)])) :=
  (format_idempotent chanBalCap chanBalResp
    (.rRec (fieldsOf [("localSat", .rInt 30399), ("remoteSat", .rInt 966131)]))
    (by decide) rfl).2

/-- C9: read-only retries are bounded: the delay schedule is
exponential in the attempt number, the default policy allows three
attempts, the total number of dispatches in a retry window never
exceeds the attempt budget, and only `Timeout`/`TransportError` are
retryable — a `NodeRejected` or `MalformedResponse` failure ends the
window at once with no further dispatch. -/
theorem readonly_retry_bounded :
    defaultPolicy.maxAttempts = 3 ∧
    (∀ (p : RetryPolicy) (n : Nat), backoffDelay p n = p.baseDelayMs * 2 ^ n) ∧
    retryable .Timeout = true ∧
    retryable .TransportError = true ∧
    retryable .NodeRejected = false ∧
    retryable .MalformedResponse = false ∧
    (∀ (σ : Type) (reg : Registry) (conn : NodeConnection σ) (nm : String)
      (a : RawArgs) (att : Nat) (s : σ),
      (invokeWithRetry reg conn nm a att s).2.2 ≤ att) ∧
    (∀ (σ : Type) (reg : Registry) (conn : NodeConnection σ) (nm : String)
      (a : RawArgs) (n : Nat) (s : σ) (cat : ErrCat) (msg : String),
      (invoke reg conn nm a s).1 = .Failure cat msg → retryable cat = false →
      invokeWithRetry reg conn nm a (n + 1) s = invoke reg conn nm a s) := by
  refine ⟨rfl, fun p n => rfl, rfl, rfl, rfl, rfl, ?_, ?_⟩
  · intro σ reg conn nm a att s
    exact invokeWithRetry_count_le reg conn nm a att s
  · intro σ reg conn nm a n s cat msg h hcat
    exact invokeWithRetry_no_retry reg conn nm a n s cat msg h hcat

set_option maxRecDepth 16384 in
/-- Witness for C9 at concrete inputs: three attempts against an
unreachable node dispatch exactly three times (within the bound), and
a `NodeRejected` answer ends a three-attempt window after the first
dispatch. -/
theorem readonly_retry_bounded_witness :
    (invokeWithRetry sampleReg downConn "channel_balance" [] 3 ()).2.2 ≤ 3 ∧
    (invokeWithRetry sampleReg downConn "channel_balance" [] 3 ()).2.2 = 3 ∧
    invokeWithRetry sampleReg rejectConn "channel_balance" [] 3 () =
      invoke sampleReg rejectConn "channel_balance" [] () :=
  ⟨readonly_retry_bounded.2.2.2.2.2.2.1 Unit sampleReg downConn "channel_balance" [] 3 (),
   by decide,
   readonly_retry_bounded.2.2.2.2.2.2.2 Unit sampleReg rejectConn "channel_balance" []
      2 () .NodeRejected "node rejected the call" (by decide) rfl⟩

/-- C10: a read-only capability such as `decode_invoice` leaves the
node state unchanged, so invoking it again right away — the second
agent run of the notebook — is the same call on the same state and
returns the identical result (same decoded fields, byte for byte). -/
theorem decode_invoice_deterministic {σ : Type} (reg : Registry)
    (conn : NodeConnection σ) (nm : String) (a : RawArgs) (s : σ) (cap : Capability)
    (hl : lookupCap reg nm = some cap) (hm : cap.mutating = false) :
    (invoke reg conn nm a s).2.1 = s ∧
    invoke reg conn nm a ((invoke reg conn nm a s).2.1) = invoke reg conn nm a s := by
  have h1 := invoke_readonly_state reg conn nm a s cap hl hm
  refine ⟨h1, ?_⟩
  rw [h1]

set_option maxRecDepth 16384 in
/-- Witness for C10 at the transcript's inputs: decoding the
transcript invoice twice in sequence yields identical results, and
the decoded payload is the transcript's record with `payment_addr`
in hexadecimal. -/
theorem decode_invoice_deterministic_witness :
    (invoke sampleReg decodeConn "decode_invoice" decodeArgs 7).2.1 = 7 ∧
    invoke sampleReg decodeConn "decode_invoice" decodeArgs
        ((invoke sampleReg decodeConn "decode_invoice" decodeArgs 7).2.1) =
      invoke sampleReg decodeConn "decode_invoice" decodeArgs 7 ∧
    (invoke sampleReg decodeConn "decode_invoice" decodeArgs 7).1 = .Success decodePayload :=
  ⟨(decode_invoice_deterministic sampleReg decodeConn "decode_invoice" decodeArgs 7
      decodeInvoiceCap rfl rfl).1,
   (decode_invoice_deterministic sampleReg decodeConn "decode_invoice" decodeArgs 7
      decodeInvoiceCap rfl rfl).2,
   by decide⟩
